import Mathlib

/-!
Verification of the AI_Impact_Summit_26 repository: the Go sandbox job portal
(`sandbox/internal/...`: job store, application store, HTTP handlers, rate-limit
middleware), the frontend apply-policy hook (`frontend/src/hooks/useProfile.ts`),
and the workflow-engine post-ground safety gate (modelled from the spec, since the
engine source is not part of this repository snapshot).

Go strings are modelled as Lean `String`s; byte-level operations on ASCII data
are transcribed at character granularity (every byte the Go code ever rewrites
is an ASCII byte, which corresponds one-to-one to a character).  Go `map`s are
modelled as association lists with overwrite-on-insert semantics, `time.Time`
as `Nat`, and Go `int` as `Int`.
-/

namespace Portal

/-! ## String helpers from `internal/handlers/jobs.go` and `internal/store/job_store.go` -/

/-- Go `contains(s, substr)`: scans every offset `i` with `0 ≤ i ≤ len(s)-len(substr)`
and compares the slice `s[i:i+len(substr)]` with `substr`.  When `substr` is longer
than `s` the Go loop body never runs (negative upper bound), matching the empty
`List.range` here. -/
def goContains (s sub : List Char) : Bool :=
  (List.range (s.length + 1 - sub.length)).any (fun i => (s.drop i).take sub.length == sub)

/-- Go `toLower` on a single byte: only `'A'`–`'Z'` get 32 added; every other byte
is left unchanged. -/
def asciiLowerChar (c : Char) : Char :=
  if 'A' ≤ c ∧ c ≤ 'Z' then Char.ofNat (c.toNat + 32) else c

/-- Go `toLower(s)`: byte-wise ASCII lowering. -/
def asciiLower (s : List Char) : List Char :=
  s.map asciiLowerChar

/-- Go `containsIgnoreCase(s, substr)`: length guard, then substring search on the
ASCII-lowered strings. -/
def containsIgnoreCase (s sub : String) : Bool :=
  decide (sub.toList.length ≤ s.toList.length) &&
    goContains (asciiLower s.toList) (asciiLower sub.toList)

/-- Character class `[a-zA-Z0-9._%+-]` of the local part of the e-mail regex in
`isValidEmail`. -/
def isEmailLocalChar (c : Char) : Bool :=
  c.isAlphanum || c == '.' || c == '_' || c == '%' || c == '+' || c == '-'

/-- Character class `[a-zA-Z0-9.-]` of the domain part of the e-mail regex. -/
def isEmailDomainChar (c : Char) : Bool :=
  c.isAlphanum || c == '.' || c == '-'

/-- The domain part of the regex, `[a-zA-Z0-9.-]+\.[a-zA-Z]\x7b2,\x7d` anchored at
both ends: some decomposition `pre ++ dot ++ tld` with `pre` non-empty over the
domain class and `tld` at least two alphabetic characters. -/
def emailDomainOk (l : List Char) : Bool :=
  (List.range l.length).any (fun i =>
    decide (1 ≤ i) && (l.get? i == some '.') &&
      (l.take i).all isEmailDomainChar &&
      decide (2 ≤ (l.drop (i + 1)).length) && (l.drop (i + 1)).all Char.isAlpha)

/-- Go `isValidEmail`: the anchored regex
`^[a-zA-Z0-9._%+-]+@[a-zA-Z0-9.-]+\.[a-zA-Z]\x7b2,\x7d$`.  Neither character class
admits `at`, so a match is exactly one decomposition at the `at` sign with a
non-empty local part and a valid domain. -/
def isValidEmail (s : String) : Bool :=
  let l := s.toList
  (List.range l.length).any (fun i =>
    decide (1 ≤ i) && (l.get? i == some '@') &&
      (l.take i).all isEmailLocalChar && emailDomainOk (l.drop (i + 1)))

/-- Digits of a decimal numeral; `none` when empty or a non-digit occurs. -/
def digitsToNat : List Char → Option Nat
  | [] => none
  | l => if l.all Char.isDigit then some (l.foldl (fun acc c => acc * 10 + (c.toNat - 48)) 0) else none

/-- Go `strconv.Atoi`: optional single sign followed by at least one digit;
anything else is an error (`none`).  64-bit overflow (which Go also reports as an
error) is not modelled; no claim depends on it. -/
def goAtoi (s : String) : Option Int :=
  match s.toList with
  | '+' :: rest => (digitsToNat rest).map Int.ofNat
  | '-' :: rest => (digitsToNat rest).map (fun n => -(n : Int))
  | l => (digitsToNat l).map Int.ofNat

/-! ## Data model from `internal/models` -/

/-- `models.Job` (the fields the claims touch; `ApplicationDeadline` is an
RFC3339 string in Go — `none` here stands for "empty or unparseable", `some d`
for a string that parses to time `d`). -/
structure Job where
  id : String
  title : String
  company : String
  description : String
  requirements : List String
  location : String
  isRemote : Bool
  remote : Bool
  jobType : String
  applicationDeadline : Option Nat
  deriving Repr, DecidableEq

/-- The zero value of `models.Job`, produced by a Go map read of a missing key. -/
def zeroJob : Job :=
  { id := "", title := "", company := "", description := "", requirements := []
    location := "", isRemote := false, remote := false, jobType := ""
    applicationDeadline := none }

/-- `models.ApplicationStatus`. -/
inductive ApplicationStatus
  | received
  | reviewing
  | submitted
  | rejected
  | shortlisted
  deriving Repr, DecidableEq

/-- `models.ApplicationRequest` (the fields the handlers read). -/
structure ApplicationRequest where
  jobID : String
  applicantName : String
  applicantEmail : String
  resume : String
  coverLetter : String
  deriving Repr, DecidableEq

/-- `models.Application` (the fields the claims touch). -/
structure Application where
  id : String
  confirmationID : String
  applicationID : String
  jobID : String
  jobTitle : String
  company : String
  applicantName : String
  applicantEmail : String
  resume : String
  coverLetter : String
  status : ApplicationStatus
  submittedAt : Nat
  updatedAt : Nat
  reviewedAt : Option Nat
  notes : String
  deriving Repr, DecidableEq

/-- `models.ErrorResponse`. -/
structure ErrorResponse where
  error : String
  message : String
  code : Int
  deriving Repr, DecidableEq

/-- `models.ApplicationResponse` (success body of POST /api/applications). -/
structure ApplicationResponse where
  success : Bool
  confirmationID : String
  applicationID : String
  status : ApplicationStatus
  message : String
  submittedAt : Nat
  jobID : String
  jobTitle : String
  company : String
  deriving Repr, DecidableEq

/-- `models.ApplicationStatusResponse` (body of GET /api/applications/:id). -/
structure ApplicationStatusResponse where
  applicationID : String
  confirmationID : String
  jobID : String
  jobTitle : String
  company : String
  status : ApplicationStatus
  submittedAt : Nat
  updatedAt : Nat
  message : String
  deriving Repr, DecidableEq

/-- `models.JobsResponse` (body of GET /api/jobs). -/
structure JobsResponse where
  jobs : List Job
  total : Int
  limit : Int
  deriving Repr, DecidableEq

/-! ## `internal/store/job_store.go` -/

/-- `store.JobStore`: `jobs` is the Go map (association list, first match wins),
`jobIDs` the ordered id list filled at seeding time. -/
structure JobStore where
  jobs : List (String × Job)
  jobIDs : List String
  deriving Repr

/-- The loop of `JobStore.GetAll`: walk `jobIDs`, stop once `limit > 0` and
`count >= limit`, keep a job only when the map read succeeds. -/
def getAllLoop (jobs : List (String × Job)) (limit : Int) : List String → Int → List Job
  | [], _ => []
  | id :: rest, count =>
    if limit > 0 ∧ count ≥ limit then []
    else
      match jobs.lookup id with
      | some job => job :: getAllLoop jobs limit rest (count + 1)
      | none => getAllLoop jobs limit rest count

/-- `JobStore.GetAll`. -/
def JobStore.getAll (s : JobStore) (limit : Int) : List Job :=
  getAllLoop s.jobs limit s.jobIDs 0

/-- `JobStore.GetCount`: the size of the `jobs` map. -/
def JobStore.getCount (s : JobStore) : Int :=
  s.jobs.length

/-- The per-job predicate of `JobStore.Search`. -/
def matchesQuery (query : String) (job : Job) : Bool :=
  containsIgnoreCase job.title query ||
    containsIgnoreCase job.company query ||
    containsIgnoreCase job.description query

/-- The loop of `JobStore.Search`: `job := s.jobs[id]` is an unchecked map read
(zero value on a missing key). -/
def searchLoop (jobs : List (String × Job)) (query : String) (limit : Int) :
    List String → Int → List Job
  | [], _ => []
  | id :: rest, count =>
    if limit > 0 ∧ count ≥ limit then []
    else
      let job := (jobs.lookup id).getD zeroJob
      if matchesQuery query job then job :: searchLoop jobs query limit rest (count + 1)
      else searchLoop jobs query limit rest count

/-- `JobStore.Search`. -/
def JobStore.search (s : JobStore) (query : String) (limit : Int) : List Job :=
  if query = "" then s.getAll limit
  else searchLoop s.jobs query limit s.jobIDs 0

/-- The loop of `JobStore.FilterByRemote`. -/
def filterRemoteLoop (jobs : List (String × Job)) (limit : Int) : List String → Int → List Job
  | [], _ => []
  | id :: rest, count =>
    if limit > 0 ∧ count ≥ limit then []
    else
      let job := (jobs.lookup id).getD zeroJob
      if job.isRemote || job.remote then job :: filterRemoteLoop jobs limit rest (count + 1)
      else filterRemoteLoop jobs limit rest count

/-- `JobStore.FilterByRemote`. -/
def JobStore.filterByRemote (s : JobStore) (limit : Int) : List Job :=
  filterRemoteLoop s.jobs limit s.jobIDs 0

/-- The loop of `JobStore.FilterByJobType`. -/
def filterTypeLoop (jobs : List (String × Job)) (jobType : String) (limit : Int) :
    List String → Int → List Job
  | [], _ => []
  | id :: rest, count =>
    if limit > 0 ∧ count ≥ limit then []
    else
      let job := (jobs.lookup id).getD zeroJob
      if job.jobType == jobType then job :: filterTypeLoop jobs jobType limit rest (count + 1)
      else filterTypeLoop jobs jobType limit rest count

/-- `JobStore.FilterByJobType`. -/
def JobStore.filterByJobType (s : JobStore) (jobType : String) (limit : Int) : List Job :=
  filterTypeLoop s.jobs jobType limit s.jobIDs 0

/-- The jobs of a store in seed (insertion) order. -/
def storeJobs (s : JobStore) : List Job :=
  s.jobIDs.filterMap (fun id => s.jobs.lookup id)

/-- Well-formedness of a seeded `JobStore`: every listed id is present in the map
(`NewJobStore` puts every seed job in both `jobs` and `jobIDs`). -/
def JobStoreWF (s : JobStore) : Prop :=
  ∀ id ∈ s.jobIDs, (s.jobs.lookup id).isSome

instance (s : JobStore) : Decidable (JobStoreWF s) := by
  unfold JobStoreWF
  infer_instance

/-! ## `internal/store/application_store.go` -/

/-- Go map write `m[k] = v`: overwrite the binding of `k`, keep every other
binding. -/
def mapInsert (k : String) (v : Application) (m : List (String × Application)) :
    List (String × Application) :=
  (k, v) :: m.filter (fun p => p.1 != k)

/-- Go `m[k] = append(m[k], id)` on a string-list index. -/
def indexAppend (m : List (String × List String)) (k : String) (id : String) :
    List (String × List String) :=
  (k, ((m.lookup k).getD []) ++ [id]) :: m.filter (fun p => p.1 != k)

/-- `store.ApplicationStore`.  `nextID` models the `uuid.New()` fresh-id source
(the only thing the code needs from a UUID is a name for the new record). -/
structure AppStore where
  applications : List (String × Application)
  applicationIDs : List String
  byJobID : List (String × List String)
  byApplicantEmail : List (String × List String)
  nextID : Nat
  deriving Repr

/-- `NewApplicationStore()`. -/
def emptyAppStore : AppStore :=
  { applications := [], applicationIDs := [], byJobID := [], byApplicantEmail := []
    nextID := 0 }

/-- The duplicate check at the top of `ApplicationStore.Create`: walk the ids
indexed under the applicant e-mail and look for one whose stored application has
the requested job id. -/
def dupCheck (s : AppStore) (req : ApplicationRequest) : Bool :=
  match s.byApplicantEmail.lookup req.applicantEmail with
  | some ids =>
      ids.any (fun appID =>
        match s.applications.lookup appID with
        | some app => app.jobID == req.jobID
        | none => false)
  | none => false

/-- `ApplicationStore.Create`: reject duplicates, otherwise mint ids, build the
record with status `received`, and update the map, the ordered id list and both
indices. -/
def storeCreate (s : AppStore) (now : Nat) (req : ApplicationRequest) (job : Job) :
    Except String (Application × AppStore) :=
  if dupCheck s req then
    .error "duplicate application: already applied to this job"
  else
    let id := "uuid-" ++ toString s.nextID
    let confirmationID := "CONF-" ++ toString now ++ "-" ++ id.take 8
    let app : Application :=
      { id := id, confirmationID := confirmationID, applicationID := confirmationID
        jobID := req.jobID, jobTitle := job.title, company := job.company
        applicantName := req.applicantName, applicantEmail := req.applicantEmail
        resume := req.resume, coverLetter := req.coverLetter
        status := .received, submittedAt := now, updatedAt := now
        reviewedAt := none, notes := "" }
    .ok (app,
      { applications := mapInsert id app s.applications
        applicationIDs := s.applicationIDs ++ [id]
        byJobID := indexAppend s.byJobID req.jobID id
        byApplicantEmail := indexAppend s.byApplicantEmail req.applicantEmail id
        nextID := s.nextID + 1 })

/-- `ApplicationStore.GetByID`: direct map lookup first, then a scan for a record
whose confirmation id or application id equals the query. -/
def storeGetByID (s : AppStore) (id : String) : Option Application :=
  match s.applications.lookup id with
  | some app => some app
  | none =>
      (s.applications.find? (fun p => p.2.confirmationID == id || p.2.applicationID == id)).map
        (fun p => p.2)

/-- `ApplicationStore.UpdateStatus`: find by internal id, else scan by
confirmation id; mutate status, notes, `UpdatedAt`, and `ReviewedAt` for the
three reviewed statuses. -/
def storeUpdateStatus (s : AppStore) (now : Nat) (id : String) (status : ApplicationStatus)
    (notes : String) : Except String AppStore :=
  let found : Option (String × Application) :=
    match s.applications.lookup id with
    | some app => some (id, app)
    | none => s.applications.find? (fun p => p.2.confirmationID == id)
  match found with
  | none => .error "application not found"
  | some (k, app) =>
      let reviewed :=
        status = ApplicationStatus.reviewing ∨ status = ApplicationStatus.shortlisted ∨
          status = ApplicationStatus.rejected
      let app' :=
        { app with
            status := status, notes := notes, updatedAt := now
            reviewedAt := if reviewed then some now else app.reviewedAt }
      .ok { s with applications := mapInsert k app' s.applications }

/-! ## `internal/handlers/jobs.go` (application handlers) -/

/-- Result of POST /api/applications: either the 201 success body or an error
body with its HTTP status code. -/
inductive SubmitResult
  | success (code : Nat) (body : ApplicationResponse)
  | failure (code : Nat) (body : ErrorResponse)
  deriving Repr, DecidableEq

/-- The deadline check of `SubmitApplication` and `GetJob`: a non-empty,
parseable `ApplicationDeadline` that lies strictly before `now`. -/
def deadlinePassed (job : Job) (now : Nat) : Bool :=
  match job.applicationDeadline with
  | some d => decide (d < now)
  | none => false

/-- Gin's `ShouldBindJSON` validation of `models.ApplicationRequest`: the
`binding:"required"` tags on `JobID`, `ApplicantName`, `ApplicantEmail` and
`Resume` reject zero values (empty strings), and the `email` tag applies
go-playground/validator's e-mail check — an external library, abstracted here
as the parameter `bindEmail`.  A request binds iff every required field is
non-empty and `bindEmail` accepts the applicant e-mail. -/
def bindOk (bindEmail : String → Bool) (req : ApplicationRequest) : Bool :=
  !(req.jobID == "") && !(req.applicantName == "") && !(req.applicantEmail == "")
    && bindEmail req.applicantEmail && !(req.resume == "")

/-- `ApplicationHandler.SubmitApplication` (POST /api/applications): gin's
binding validation (its external e-mail validator abstracted as `bindEmail`,
its error text as `bindErr`), then the handler's explicit field checks in
source order (unreachable through the route, since binding already rejects
empty fields, but kept as in the source), job lookup, deadline check,
`ApplicationStore.Create`, and the mapping of a `duplicate` create error to
HTTP 409.  Returns the response together with the application store after the
call. -/
def submitApplication (bindEmail : String → Bool) (bindErr : String) (jobs : JobStore)
    (s : AppStore) (now : Nat) (req : ApplicationRequest) : SubmitResult × AppStore :=
  if ¬ bindOk bindEmail req then
    (.failure 400 ⟨"invalid_request", "Invalid request body: " ++ bindErr, 400⟩, s)
  else if req.jobID = "" then
    (.failure 400 ⟨"missing_job_id", "Job ID is required.", 400⟩, s)
  else if req.applicantName = "" then
    (.failure 400 ⟨"missing_applicant_name", "Applicant name is required.", 400⟩, s)
  else if req.applicantEmail = "" then
    (.failure 400 ⟨"missing_applicant_email", "Applicant email is required.", 400⟩, s)
  else if ¬ isValidEmail req.applicantEmail then
    (.failure 400 ⟨"invalid_email", "Please provide a valid email address.", 400⟩, s)
  else if req.resume = "" then
    (.failure 400 ⟨"missing_resume", "Resume is required.", 400⟩, s)
  else
    match jobs.jobs.lookup req.jobID with
    | none => (.failure 404 ⟨"job_not_found", "The specified job does not exist.", 404⟩, s)
    | some job =>
        if deadlinePassed job now then
          (.failure 400
            ⟨"deadline_passed", "The application deadline for this job has passed.", 400⟩, s)
        else
          match storeCreate s now req job with
          | .error e =>
              if goContains e.toList "duplicate".toList then
                (.failure 409 ⟨"duplicate_application", "You have already applied to this job.", 409⟩, s)
              else
                (.failure 500 ⟨"application_failed", "Failed to submit application: " ++ e, 500⟩, s)
          | .ok (app, s') =>
              (.success 201
                { success := true, confirmationID := app.confirmationID
                  applicationID := app.confirmationID, status := app.status
                  message := "Application submitted successfully. You will receive a confirmation email shortly."
                  submittedAt := app.submittedAt, jobID := app.jobID
                  jobTitle := app.jobTitle, company := app.company }, s')

/-- Result of GET /api/applications/:id. -/
inductive GetAppResult
  | ok (code : Nat) (body : ApplicationStatusResponse)
  | err (code : Nat) (body : ErrorResponse)
  deriving Repr, DecidableEq

/-- `getStatusMessage`. -/
def statusMessage : ApplicationStatus → String
  | .received => "Your application has been received and is in our system."
  | .reviewing => "Your application is currently being reviewed by our team."
  | .submitted => "Your application has been submitted successfully."
  | .rejected => "Unfortunately, we have decided not to move forward with your application at this time."
  | .shortlisted => "Congratulations! You have been shortlisted for the next round."

/-- The 200 body `GetApplication` builds from a stored record. -/
def statusResponseOf (app : Application) : ApplicationStatusResponse :=
  { applicationID := app.confirmationID, confirmationID := app.confirmationID
    jobID := app.jobID, jobTitle := app.jobTitle, company := app.company
    status := app.status, submittedAt := app.submittedAt, updatedAt := app.updatedAt
    message := statusMessage app.status }

/-- `ApplicationHandler.GetApplication` (GET /api/applications/:id). -/
def getApplication (s : AppStore) (id : String) : GetAppResult :=
  match storeGetByID s id with
  | none =>
      .err 404 ⟨"application_not_found", "The specified application could not be found.", 404⟩
  | some app => .ok 200 (statusResponseOf app)

/-! ## `JobHandler.ListJobs` (GET /api/jobs) -/

/-- The limit coercion at the top of `ListJobs`: `DefaultQuery("limit", "100")`,
`strconv.Atoi`, and `if err != nil || limit < 0` resets to 100. -/
def effLimit (limitParam : Option String) : Int :=
  match goAtoi (limitParam.getD "100") with
  | none => 100
  | some n => if n < 0 then 100 else n

/-- `JobHandler.ListJobs`: dispatch on the `q`, `remote` and `type` query
parameters (absent parameters are the empty string, as `c.Query` returns), then
build the `JobsResponse` with `Total` from `GetCount`. -/
def listJobs (s : JobStore) (limitParam : Option String) (q remote jobType : String) :
    JobsResponse :=
  let limit := effLimit limitParam
  let jobs :=
    if q ≠ "" then s.search q limit
    else if remote = "true" then s.filterByRemote limit
    else if jobType ≠ "" then s.filterByJobType jobType limit
    else s.getAll limit
  { jobs := jobs, total := s.getCount, limit := limit }

/-! ## `internal/middleware/ratelimit.go` -/

/-- A token bucket: remaining tokens (`int` in Go, may go negative via
`rate - 1`) and the instant of the last reset. -/
structure Bucket where
  tokens : Int
  lastReset : Nat
  deriving Repr, DecidableEq

/-- `middleware.RateLimiter`: the bucket map keyed by client key, the per-window
request budget and the window length. -/
structure RateLimiter where
  buckets : String → Option Bucket
  rate : Int
  window : Nat

/-- `RateLimiter.Allow(key)` at instant `now`: unseen key creates a bucket with
`rate - 1` tokens and allows; an elapsed window resets the bucket and allows;
otherwise a positive token count is consumed, and an empty bucket denies. -/
def rlAllow (rl : RateLimiter) (key : String) (now : Nat) : Bool × RateLimiter :=
  match rl.buckets key with
  | none =>
      (true, { rl with buckets := fun k => if k = key then some ⟨rl.rate - 1, now⟩ else rl.buckets k })
  | some b =>
      if now - b.lastReset ≥ rl.window then
        (true, { rl with buckets := fun k => if k = key then some ⟨rl.rate - 1, now⟩ else rl.buckets k })
      else if b.tokens > 0 then
        (true, { rl with buckets := fun k => if k = key then some ⟨b.tokens - 1, b.lastReset⟩ else rl.buckets k })
      else
        (false, rl)

/-- What a rate-limit middleware does to one request: pass it on, or abort with
a status code, an optional `Retry-After` header value, and the JSON error body. -/
inductive MWDecision
  | next
  | reject (code : Nat) (retryAfter : Option String) (error : String) (message : String)
  deriving Repr, DecidableEq

/-- `middleware.RateLimitMiddleware`, applied to one request from `clientIP`. -/
def rateLimitMiddleware (rl : RateLimiter) (clientIP : String) (now : Nat) :
    MWDecision × RateLimiter :=
  let r := rlAllow rl clientIP now
  if r.1 then (.next, r.2)
  else
    (.reject 429 (some "60") "rate_limit_exceeded"
      "Too many requests. Please wait before trying again.", r.2)

/-- `middleware.ApplicationRateLimitMiddleware`, applied to one request from
`clientIP`: same shape, key suffixed with `:applications`, `Retry-After: 30`. -/
def applicationRateLimitMiddleware (rl : RateLimiter) (clientIP : String) (now : Nat) :
    MWDecision × RateLimiter :=
  let r := rlAllow rl (clientIP ++ ":applications") now
  if r.1 then (.next, r.2)
  else
    (.reject 429 (some "30") "rate_limit_exceeded"
      "Too many application submissions. Please wait before trying again.", r.2)

/-- A run of `Allow` calls for one key at the given instants, returning the
decisions in order. -/
def rlAllowRun (rl : RateLimiter) (key : String) : List Nat → List Bool
  | [] => []
  | t :: ts =>
      let r := rlAllow rl key t
      r.1 :: rlAllowRun r.2 key ts

/-- Number of allowed calls in a run. -/
def countTrue (l : List Bool) : Nat :=
  (l.filter id).length

end Portal

namespace Frontend

/-! ## `frontend/src/hooks/useProfile.ts` -/

/-- `ApplyPolicy` from `frontend/src/types`. -/
structure ApplyPolicy where
  max_applications_per_day : Int
  min_match_threshold : Int
  blocked_companies : List String
  blocked_role_types : List String
  require_remote : Bool
  required_location : Option String
  enabled : Bool
  deriving Repr, DecidableEq

/-- `DEFAULT_POLICY`. -/
def DEFAULT_POLICY : ApplyPolicy :=
  { max_applications_per_day := 50, min_match_threshold := 30
    blocked_companies := [], blocked_role_types := []
    require_remote := false, required_location := none, enabled := true }

/-- A parsed stored policy object: each field is present (`some`) or absent
(`none`); a present field overrides the default under object spread. -/
structure PartialApplyPolicy where
  max_applications_per_day : Option Int
  min_match_threshold : Option Int
  blocked_companies : Option (List String)
  blocked_role_types : Option (List String)
  require_remote : Option Bool
  required_location : Option (Option String)
  enabled : Option Bool
  deriving Repr, DecidableEq

/-- The spread `\x7b...DEFAULT_POLICY, ...JSON.parse(stored)\x7d`: field-wise
override of the defaults by the present fields of the stored object. -/
def mergePolicy (d : ApplyPolicy) (p : PartialApplyPolicy) : ApplyPolicy :=
  { max_applications_per_day := p.max_applications_per_day.getD d.max_applications_per_day
    min_match_threshold := p.min_match_threshold.getD d.min_match_threshold
    blocked_companies := p.blocked_companies.getD d.blocked_companies
    blocked_role_types := p.blocked_role_types.getD d.blocked_role_types
    require_remote := p.require_remote.getD d.require_remote
    required_location := p.required_location.getD d.required_location
    enabled := p.enabled.getD d.enabled }

/-- What `localStorage` + `JSON.parse` can yield for the policy key: no stored
value (also the empty string, which is falsy), a stored string that fails to
parse (the `catch` branch), or a parsed object. -/
inductive StoredPolicy
  | absent
  | unparseable
  | parsed (p : PartialApplyPolicy)
  deriving Repr, DecidableEq

/-- The initializer of `useApplyPolicy`'s state. -/
def loadPolicy : StoredPolicy → ApplyPolicy
  | .absent => DEFAULT_POLICY
  | .unparseable => DEFAULT_POLICY
  | .parsed p => mergePolicy DEFAULT_POLICY p

end Frontend

namespace Engine

/-! ## Workflow-engine post-ground safety gate -/

/-- Modelled from the spec: the engine's `Profile` is, to the grounding stage,
"a bag of bullet ids and proof ids" (§3); the engine source is not part of this
repository snapshot (only the frontend and the Go portal sandbox are), so the
grounding data model follows the spec's words. -/
structure Profile where
  bulletIDs : List String
  proofIDs : List String
  deriving Repr, DecidableEq

/-- Modelled from the spec: one entry of a Personalization's evidence map (§3,
§4.4): a requirement paired with the evidence id the personalizer claims. -/
structure EvidenceEntry where
  requirement : String
  evidenceIdClaim : String
  deriving Repr, DecidableEq

/-- Modelled from the spec: a `Personalization` (§3). -/
structure Personalization where
  jobID : String
  coverLetter : String
  evidenceMap : List EvidenceEntry
  deriving Repr, DecidableEq

/-- Modelled from the spec: the Evidence Grounder's per-entry check (§4.4):
"look up `evidence_id_claim` in the profile's bullet set and proof set; if
absent, mark `grounded = false`". -/
def grounded (p : Profile) (e : EvidenceEntry) : Bool :=
  p.bulletIDs.contains e.evidenceIdClaim || p.proofIDs.contains e.evidenceIdClaim

/-- Modelled from the spec: the decision the post-ground gate hands the engine
(§4.3): proceed to `PortalAdapter.Submit` for this job, or skip with a reason. -/
inductive GateDecision
  | submit (jobID : String)
  | skip (reason : String)
  deriving Repr, DecidableEq

/-- Modelled from the spec: the post-ground gate (§4.3): "if the evidence map
contains any ungrounded requirement, skip with reason `ungrounded_claim`";
otherwise the job proceeds to submission. -/
def postGroundGate (p : Profile) (pers : Personalization) : GateDecision :=
  if pers.evidenceMap.all (grounded p) then .submit pers.jobID
  else .skip "ungrounded_claim"

/-- Modelled from the spec: the submission stage invokes `PortalAdapter.Submit`
exactly for the jobs the post-ground gate lets through (§2 data flow,
§4.5). `submitCalls` lists the job ids for which `Submit` is called when the
engine drives the given personalizations through the gate. -/
def submitCalls (p : Profile) (perss : List Personalization) : List String :=
  perss.filterMap (fun pers =>
    match postGroundGate p pers with
    | .submit jobID => some jobID
    | .skip _ => none)

end Engine

/-! ## General helper lemmas -/

namespace Portal

theorem countTrue_nil : countTrue [] = 0 := rfl

theorem countTrue_cons_true (l : List Bool) : countTrue (true :: l) = countTrue l + 1 := by
  simp [countTrue]

theorem countTrue_cons_false (l : List Bool) : countTrue (false :: l) = countTrue l := by
  simp [countTrue]

/-- A key/value pair in an association list with pairwise-distinct keys is found
by `lookup`. -/
theorem lookup_of_mem_nodup {β : Type} (k : String) (v : β) :
    ∀ m : List (String × β), (m.map Prod.fst).Nodup → (k, v) ∈ m → m.lookup k = some v := by
  intro m
  induction m with
  | nil => intro _ h; cases h
  | cons hd tl ih =>
      intro hnd hmem
      simp only [List.map_cons, List.nodup_cons] at hnd
      rcases List.mem_cons.mp hmem with heq | htl
      · cases heq
        simp [List.lookup]
      · have hk : k ≠ hd.1 := by
          intro hk
          exact hnd.1 (hk ▸ List.mem_map_of_mem Prod.fst htl)
        simp [List.lookup, beq_false_of_ne hk, ih hnd.2 htl]

/-- If no pair of an association list has key `k`, `lookup k` fails. -/
theorem lookup_eq_none_of_not_mem {β : Type} (k : String) :
    ∀ m : List (String × β), (∀ p ∈ m, p.1 ≠ k) → m.lookup k = none := by
  intro m
  induction m with
  | nil => intro _; rfl
  | cons hd tl ih =>
      intro h
      have hhd : hd.1 ≠ k := h hd (List.mem_cons_self hd tl)
      have : k ≠ hd.1 := fun hk => hhd hk.symm
      simp [List.lookup, beq_false_of_ne this, ih fun p hp => h p (List.mem_cons_of_mem hd hp)]

theorem string_append_ne_empty (pre x : String) (h : pre ≠ "") : pre ++ x ≠ "" := by
  intro hc
  apply h
  apply String.ext
  have hd := congrArg String.data hc
  rw [String.data_append] at hd
  have hnil : pre.data = [] := (List.append_eq_nil.mp hd).1
  simpa using hnil

end Portal

/-! ## Claim C9 — frontend default apply policy and field-wise merge -/

namespace Frontend

/-- Claim C9: when no policy is stored in the browser, or the stored JSON fails
to parse, the frontend's apply policy is the default (`enabled = true`,
`max_applications_per_day = 50`, `min_match_threshold = 30`, empty
`blocked_companies` and `blocked_role_types`, `require_remote = false`,
`required_location = null`); a stored policy is merged field-wise over these
defaults. -/
theorem loadPolicy_spec :
    loadPolicy .absent =
      { max_applications_per_day := 50, min_match_threshold := 30
        blocked_companies := [], blocked_role_types := []
        require_remote := false, required_location := none, enabled := true }
    ∧ loadPolicy .unparseable =
      { max_applications_per_day := 50, min_match_threshold := 30
        blocked_companies := [], blocked_role_types := []
        require_remote := false, required_location := none, enabled := true }
    ∧ ∀ p : PartialApplyPolicy,
        loadPolicy (.parsed p) =
          { max_applications_per_day := p.max_applications_per_day.getD 50
            min_match_threshold := p.min_match_threshold.getD 30
            blocked_companies := p.blocked_companies.getD []
            blocked_role_types := p.blocked_role_types.getD []
            require_remote := p.require_remote.getD false
            required_location := p.required_location.getD none
            enabled := p.enabled.getD true } :=
  ⟨rfl, rfl, fun _ => rfl⟩

end Frontend

/-! ## Claim C5 — every rate-limit rejection is a 429 with Retry-After -/

namespace Portal

/-- The shape C5 asserts of a middleware rejection; a passed-through request
asserts nothing. -/
def rejectShape : MWDecision → Prop
  | .next => True
  | .reject code retryAfter error _ =>
      code = 429 ∧ retryAfter.isSome = true ∧ error = "rate_limit_exceeded"

/-- Claim C5: whenever the portal rejects a request because a rate limit was
exceeded (either the general or the application rate-limit middleware aborts the
request), the response has HTTP status 429, carries a `Retry-After` header, and
its JSON body has error code `rate_limit_exceeded`. -/
theorem rateLimit_reject_shape (rl : RateLimiter) (clientIP : String) (now : Nat) :
    rejectShape (rateLimitMiddleware rl clientIP now).1
    ∧ rejectShape (applicationRateLimitMiddleware rl clientIP now).1 := by
  constructor
  · unfold rateLimitMiddleware
    cases h : (rlAllow rl clientIP now).1 <;> simp [h, rejectShape]
  · unfold applicationRateLimitMiddleware
    cases h : (rlAllow rl (clientIP ++ ":applications") now).1 <;> simp [h, rejectShape]

end Portal

/-! ## Claim C1 — grounding safety: ungrounded personalizations are never submitted -/

namespace Engine

/-- Claim C1 (spec-modelled: the engine source is not in this snapshot): for
every Personalization whose evidence map contains an entry whose claimed
evidence id is absent from the Profile's bullet set and proof set, the
post-ground gate skips the job with reason `ungrounded_claim`, never decides
submit, and — when the engine processes a batch in which this job's
personalization is the one carrying its job id — `PortalAdapter.Submit` is not
called for that job. -/
theorem postGroundGate_ungrounded_skips (p : Profile) (pers : Personalization)
    (h : ∃ e ∈ pers.evidenceMap, grounded p e = false) :
    postGroundGate p pers = .skip "ungrounded_claim"
    ∧ (∀ jobID, postGroundGate p pers ≠ .submit jobID)
    ∧ ∀ perss : List Personalization, pers ∈ perss →
        (∀ q ∈ perss, q.jobID = pers.jobID → q = pers) →
        pers.jobID ∉ submitCalls p perss := by
  obtain ⟨e, he, hge⟩ := h
  have hall : pers.evidenceMap.all (grounded p) = false := by
    rw [List.all_eq_false]
    exact ⟨e, he, by simp [hge]⟩
  have hskip : postGroundGate p pers = .skip "ungrounded_claim" := by
    unfold postGroundGate
    simp [hall]
  refine ⟨hskip, ?_, ?_⟩
  · intro jobID hc
    rw [hskip] at hc
    cases hc
  · intro perss _ huniq hc
    unfold submitCalls at hc
    rw [List.mem_filterMap] at hc
    obtain ⟨q, hq, hqeq⟩ := hc
    by_cases hqa : q.evidenceMap.all (grounded p) = true
    · simp only [postGroundGate, if_pos hqa] at hqeq
      have hjid : q.jobID = pers.jobID := by simpa using hqeq
      have hqp : q = pers := huniq q hq hjid
      subst hqp
      rw [hall] at hqa
      cases hqa
    · simp only [postGroundGate, if_neg hqa] at hqeq
      cases hqeq

/-- Fixture for the C1 witness: a profile with one bullet and one proof. -/
def sampleProfile : Profile :=
  { bulletIDs := ["b1"], proofIDs := ["p1"] }

/-- Fixture for the C1 witness: a personalization claiming an unknown evidence
id. -/
def samplePers : Personalization :=
  { jobID := "J1", coverLetter := "cl"
    evidenceMap := [{ requirement := "Python", evidenceIdClaim := "b_unknown" }] }

/-- Witness for C1 at a concrete ungrounded personalization (the spec's
Scenario E). -/
theorem postGroundGate_ungrounded_skips_witness :
    postGroundGate sampleProfile samplePers = .skip "ungrounded_claim"
    ∧ samplePers.jobID ∉ submitCalls sampleProfile [samplePers] := by
  have h := postGroundGate_ungrounded_skips sampleProfile samplePers
    ⟨{ requirement := "Python", evidenceIdClaim := "b_unknown" }, by decide, by decide⟩
  exact ⟨h.1, h.2.2 [samplePers] (by decide) (by decide)⟩

end Engine

/-! ## Claim C4 — shape of the portal's submission responses -/

namespace Portal

/-- The fields of a `storeCreate` success record that C4 needs. -/
theorem storeCreate_ok_fields (s : AppStore) (now : Nat) (req : ApplicationRequest) (job : Job)
    (app : Application) (s' : AppStore) (h : storeCreate s now req job = .ok (app, s')) :
    app.confirmationID = "CONF-" ++ (toString now ++ "-" ++ ("uuid-" ++ toString s.nextID).take 8)
    ∧ app.status = .received
    ∧ app.applicantEmail = req.applicantEmail
    ∧ app.jobID = req.jobID
    ∧ app.submittedAt = now := by
  unfold storeCreate at h
  split at h
  · cases h
  · rw [Except.ok.injEq, Prod.mk.injEq] at h
    rw [← h.1]
    refine ⟨?_, rfl, rfl, rfl, rfl⟩
    simp [String.append_assoc]

/-- What C4 asserts of each submission response. -/
def responseOk : SubmitResult → Prop
  | .success code body =>
      code = 201 ∧ body.success = true ∧ body.confirmationID ≠ ""
        ∧ body.status = .received
  | .failure _ body => body.error ≠ "" ∧ body.message ≠ ""

/-- Claim C4: every accepted submission gets HTTP 201 with a body carrying
`success = true`, a non-empty `confirmation_id` and a status field (whose value
is `received`); every rejected submission gets a body with non-empty `error` and
`message` fields. -/
theorem submitApplication_response_shape (bindEmail : String → Bool) (bindErr : String)
    (jobs : JobStore) (s : AppStore) (now : Nat) (req : ApplicationRequest) :
    responseOk (submitApplication bindEmail bindErr jobs s now req).1 := by
  unfold submitApplication
  split
  · constructor
    · show ("invalid_request" : String) ≠ ""
      decide
    · show "Invalid request body: " ++ bindErr ≠ ""
      exact string_append_ne_empty "Invalid request body: " bindErr (by decide)
  · split
    · exact ⟨by decide, by decide⟩
    · split
      · exact ⟨by decide, by decide⟩
      · split
        · exact ⟨by decide, by decide⟩
        · split
          · exact ⟨by decide, by decide⟩
          · split
            · exact ⟨by decide, by decide⟩
            · split
              · exact ⟨by decide, by decide⟩
              · rename_i job _
                split
                · exact ⟨by decide, by decide⟩
                · split
                  · rename_i e _
                    split
                    · exact ⟨by decide, by decide⟩
                    · constructor
                      · show ("application_failed" : String) ≠ ""
                        decide
                      · show "Failed to submit application: " ++ e ≠ ""
                        exact string_append_ne_empty "Failed to submit application: " e (by decide)
                  · rename_i app s' heq
                    have hf := storeCreate_ok_fields s now req job app s' heq
                    refine ⟨rfl, rfl, ?_, hf.2.1⟩
                    rw [hf.1]
                    exact string_append_ne_empty "CONF-" _ (by decide)

end Portal

/-! ## Claim C8 — token-bucket rate limiter window bound -/

namespace Portal

/-- Calls for one key within a single window (no reset occurs) consume at most
the bucket's tokens. -/
theorem rlAllowRun_count_le (key : String) (t0 : Nat) :
    ∀ (ts : List Nat) (rl : RateLimiter) (b : Bucket),
      rl.buckets key = some b → b.lastReset = t0 →
      (∀ t ∈ ts, t - t0 < rl.window) →
      countTrue (rlAllowRun rl key ts) ≤ b.tokens.toNat := by
  intro ts
  induction ts with
  | nil => intro rl b _ _ _; simp [rlAllowRun, countTrue_nil]
  | cons t ts ih =>
      intro rl b hb hreset hwin
      have hno : ¬ (t - b.lastReset ≥ rl.window) := by
        rw [hreset]
        have := hwin t (List.mem_cons_self t ts)
        omega
      have hwin' : ∀ u ∈ ts, u - t0 < rl.window := fun u hu => hwin u (List.mem_cons_of_mem t hu)
      show countTrue ((rlAllow rl key t).1 :: rlAllowRun (rlAllow rl key t).2 key ts) ≤ b.tokens.toNat
      by_cases htok : b.tokens > 0
      · have hstep : rlAllow rl key t =
            (true, { rl with
              buckets := fun k => if k = key then some ⟨b.tokens - 1, b.lastReset⟩ else rl.buckets k }) := by
          unfold rlAllow
          rw [hb]
          dsimp only
          rw [if_neg hno, if_pos htok]
        rw [hstep]
        dsimp only
        rw [countTrue_cons_true]
        have hrec := ih
          { rl with buckets := fun k => if k = key then some ⟨b.tokens - 1, b.lastReset⟩ else rl.buckets k }
          ⟨b.tokens - 1, b.lastReset⟩ (by simp) hreset hwin'
        dsimp only at hrec
        omega
      · have hstep : rlAllow rl key t = (false, rl) := by
          unfold rlAllow
          rw [hb]
          dsimp only
          rw [if_neg hno, if_neg htok]
        rw [hstep]
        dsimp only
        rw [countTrue_cons_false]
        exact ih rl b hb hreset hwin'

/-- Claim C8 (amended: the window bound needs `rate ≥ 1`; with `rate = 0` the
very first call is still allowed, see the counterexample): for every key of a
rate limiter with `rate ≥ 1`, at most `rate` `Allow` calls return true within a
single window (all call instants within `window` of the first call, so the
bucket never resets), and the first call for a previously unseen key always
returns true (for any rate). -/
theorem rateLimiter_allow_bound (rl : RateLimiter) (key : String) (t0 : Nat) (ts : List Nat)
    (hrate : 1 ≤ rl.rate) (hnew : rl.buckets key = none)
    (hwin : ∀ t ∈ ts, t - t0 < rl.window) :
    countTrue (rlAllowRun rl key (t0 :: ts)) ≤ rl.rate.toNat
    ∧ ∀ (rl' : RateLimiter) (k : String) (t : Nat),
        rl'.buckets k = none → (rlAllow rl' k t).1 = true := by
  constructor
  · have hstep : rlAllow rl key t0 =
        (true, { rl with buckets := fun k => if k = key then some ⟨rl.rate - 1, t0⟩ else rl.buckets k }) := by
      unfold rlAllow
      rw [hnew]
    show countTrue ((rlAllow rl key t0).1 :: rlAllowRun (rlAllow rl key t0).2 key ts) ≤ rl.rate.toNat
    rw [hstep]
    dsimp only
    rw [countTrue_cons_true]
    have hrec := rlAllowRun_count_le key t0 ts
      { rl with buckets := fun k => if k = key then some ⟨rl.rate - 1, t0⟩ else rl.buckets k }
      ⟨rl.rate - 1, t0⟩ (by simp) rfl hwin
    dsimp only at hrec
    omega
  · intro rl' k t h
    unfold rlAllow
    rw [h]

/-- Fixture: an empty rate limiter with rate 3 and a 60-unit window. -/
def sampleLimiter : RateLimiter :=
  { buckets := fun _ => none, rate := 3, window := 60 }

/-- Witness for C8 on a concrete limiter: five calls inside one window, at most
three allowed. -/
theorem rateLimiter_allow_bound_witness :
    countTrue (rlAllowRun sampleLimiter "10.0.0.1" (0 :: [1, 2, 3, 4])) ≤ 3
    ∧ (rlAllow sampleLimiter "fresh" 0).1 = true := by
  have h := rateLimiter_allow_bound sampleLimiter "10.0.0.1" 0 [1, 2, 3, 4]
    (by decide) rfl (by decide)
  exact ⟨h.1, h.2 sampleLimiter "fresh" 0 rfl⟩

/-- Fixture: a limiter constructed with rate 0. -/
def zeroLimiter : RateLimiter :=
  { buckets := fun _ => none, rate := 0, window := 60 }

/-- Counterexample to C8 as stated: with `rate = 0` the first `Allow` call for a
key still returns true, so "at most `rate` calls return true" fails. -/
theorem rateLimiter_allow_bound_cex :
    zeroLimiter.rate = 0 ∧ countTrue (rlAllowRun zeroLimiter "k" [0]) = 1 :=
  ⟨rfl, rfl⟩

end Portal

/-! ## Claims C2 and C3 — duplicate protection in the application store -/

namespace Portal

/-- The keys of the application map are pairwise distinct. -/
def KeysNodup (s : AppStore) : Prop :=
  (s.applications.map Prod.fst).Nodup

/-- Every stored application's id is listed in the e-mail index under its own
applicant e-mail (`Create` appends the new id to both indices). -/
def IndexComplete (s : AppStore) : Prop :=
  ∀ p ∈ s.applications, p.1 ∈ ((s.byApplicantEmail.lookup p.2.applicantEmail).getD [])

/-- No two stored applications share both applicant e-mail and job id. -/
def NoDupPair (s : AppStore) : Prop :=
  s.applications.Pairwise
    (fun p q => ¬ (p.2.applicantEmail = q.2.applicantEmail ∧ p.2.jobID = q.2.jobID))

/-- The well-formedness invariant every reachable application store satisfies. -/
def StoreInv (s : AppStore) : Prop :=
  KeysNodup s ∧ IndexComplete s ∧ NoDupPair s

instance (s : AppStore) : Decidable (KeysNodup s) := by
  unfold KeysNodup
  infer_instance

instance (s : AppStore) : Decidable (IndexComplete s) := by
  unfold IndexComplete
  infer_instance

instance (s : AppStore) : Decidable (NoDupPair s) := by
  unfold NoDupPair
  infer_instance

instance (s : AppStore) : Decidable (StoreInv s) := by
  unfold StoreInv
  infer_instance

/-- If `Create`'s duplicate check fails to fire, no stored application matches
the request's (e-mail, job id) pair. -/
theorem dupCheck_eq_false_no_match (s : AppStore) (req : ApplicationRequest)
    (hk : KeysNodup s) (hic : IndexComplete s) (hdc : dupCheck s req = false) :
    ∀ p ∈ s.applications,
      ¬ (p.2.applicantEmail = req.applicantEmail ∧ p.2.jobID = req.jobID) := by
  rintro p hp ⟨he, hj⟩
  have hidx := hic p hp
  rw [he] at hidx
  unfold dupCheck at hdc
  cases hlk : s.byApplicantEmail.lookup req.applicantEmail with
  | none => rw [hlk] at hidx; simp at hidx
  | some ids =>
      rw [hlk] at hdc hidx
      simp only [Option.getD_some] at hidx
      rw [List.any_eq_false] at hdc
      have hfor := hdc p.1 hidx
      have hlp : s.applications.lookup p.1 = some p.2 :=
        lookup_of_mem_nodup p.1 p.2 s.applications hk (by rw [Prod.mk.eta]; exact hp)
      rw [hlp] at hfor
      simp [hj] at hfor

/-- Conversely, a stored application matching the request's (e-mail, job id)
makes the duplicate check fire. -/
theorem dupCheck_eq_true_of_match (s : AppStore) (req : ApplicationRequest)
    (hk : KeysNodup s) (hic : IndexComplete s) (p : String × Application)
    (hp : p ∈ s.applications) (he : p.2.applicantEmail = req.applicantEmail)
    (hj : p.2.jobID = req.jobID) : dupCheck s req = true := by
  cases hdc : dupCheck s req with
  | true => rfl
  | false => exact absurd ⟨he, hj⟩ (dupCheck_eq_false_no_match s req hk hic hdc p hp)

theorem mem_mapInsert (k : String) (v : Application) (m : List (String × Application))
    (p : String × Application) :
    p ∈ mapInsert k v m ↔ p = (k, v) ∨ (p ∈ m ∧ p.1 ≠ k) := by
  unfold mapInsert
  simp [List.mem_cons, List.mem_filter, bne_iff_ne]

theorem mapInsert_keys_nodup (k : String) (v : Application) (m : List (String × Application))
    (h : (m.map Prod.fst).Nodup) : ((mapInsert k v m).map Prod.fst).Nodup := by
  unfold mapInsert
  simp only [List.map_cons, List.nodup_cons]
  constructor
  · intro hmem
    rw [List.mem_map] at hmem
    obtain ⟨p, hpmem, hpk⟩ := hmem
    rw [List.mem_filter] at hpmem
    have hne : p.1 ≠ k := by simpa [bne_iff_ne] using hpmem.2
    exact hne hpk
  · exact List.Nodup.sublist (List.Sublist.map Prod.fst (List.filter_sublist m)) h

theorem lookup_filter_ne {β : Type} (k e : String) (hne : e ≠ k) :
    ∀ m : List (String × β), (m.filter (fun p => p.1 != k)).lookup e = m.lookup e := by
  intro m
  induction m with
  | nil => rfl
  | cons hd tl ih =>
      obtain ⟨k', v'⟩ := hd
      rw [List.filter_cons]
      by_cases hk : k' = k
      · subst hk
        rw [if_neg (by simp)]
        rw [ih]
        have hek : (e == k') = false := beq_false_of_ne hne
        simp [List.lookup, hek]
      · rw [if_pos (by simpa [bne_iff_ne] using hk)]
        by_cases he : e = k'
        · subst he
          simp [List.lookup]
        · simp [List.lookup, beq_false_of_ne he, ih]

theorem indexAppend_lookup (m : List (String × List String)) (k id e : String) :
    (indexAppend m k id).lookup e =
      if e = k then some (((m.lookup k).getD []) ++ [id]) else m.lookup e := by
  unfold indexAppend
  by_cases he : e = k
  · subst he
    simp [List.lookup]
  · rw [if_neg he]
    simp only [List.lookup, beq_false_of_ne he]
    exact lookup_filter_ne k e he m

/-- `ApplicationStore.Create` preserves the store invariant (for any generated
id, colliding or not: the duplicate check runs before the insert and the
overwrite semantics of the map keep keys distinct). -/
theorem storeCreate_inv (s : AppStore) (now : Nat) (req : ApplicationRequest) (job : Job)
    (app : Application) (s' : AppStore) (hinv : StoreInv s)
    (h : storeCreate s now req job = .ok (app, s')) : StoreInv s' := by
  obtain ⟨hk, hic, hnd⟩ := hinv
  unfold storeCreate at h
  split at h
  · cases h
  · rename_i hdc
    have hdcf : dupCheck s req = false := by
      cases hv : dupCheck s req
      · rfl
      · exact absurd hv hdc
    simp only [Except.ok.injEq, Prod.mk.injEq] at h
    obtain ⟨happ, hs⟩ := h
    subst happ
    subst hs
    refine ⟨mapInsert_keys_nodup _ _ _ hk, ?_, ?_⟩
    · intro p hp
      rw [mem_mapInsert] at hp
      rcases hp with rfl | ⟨hpm, _⟩
      · rw [indexAppend_lookup]
        rw [if_pos rfl]
        simp
      · have hold := hic p hpm
        rw [indexAppend_lookup]
        by_cases he : p.2.applicantEmail = req.applicantEmail
        · rw [if_pos he]
          rw [he] at hold
          simp only [Option.getD_some]
          exact List.mem_append_left _ hold
        · rw [if_neg he]
          exact hold
    · apply List.Pairwise.cons
      · intro q hq
        rw [List.mem_filter] at hq
        have hnomatch := dupCheck_eq_false_no_match s req hk hic hdcf q hq.1
        rintro ⟨hqe, hqj⟩
        exact hnomatch ⟨hqe.symm, hqj.symm⟩
      · exact List.Pairwise.sublist (List.filter_sublist _) hnd

/-- The submit handler preserves the store invariant: every error path returns
the store unchanged, and the success path goes through `storeCreate`. -/
theorem submitApplication_inv (bindEmail : String → Bool) (bindErr : String) (jobs : JobStore)
    (s : AppStore) (now : Nat) (req : ApplicationRequest) (hinv : StoreInv s) :
    StoreInv (submitApplication bindEmail bindErr jobs s now req).2 := by
  unfold submitApplication
  split
  · exact hinv
  · split
    · exact hinv
    · split
      · exact hinv
      · split
        · exact hinv
        · split
          · exact hinv
          · split
            · exact hinv
            · split
              · exact hinv
              · rename_i job _
                split
                · exact hinv
                · split
                  · split
                    · exact hinv
                    · exact hinv
                  · rename_i app s' heq
                    exact storeCreate_inv s now req job app s' hinv heq

/-- The application store after a sequence of submission attempts, starting from
`NewApplicationStore()`. -/
def runSubmits (bindEmail : String → Bool) (bindErr : String) (jobs : JobStore)
    (reqs : List (Nat × ApplicationRequest)) : AppStore :=
  reqs.foldl (fun s nr => (submitApplication bindEmail bindErr jobs s nr.1 nr.2).2) emptyAppStore

theorem storeInv_foldl (bindEmail : String → Bool) (bindErr : String) (jobs : JobStore) :
    ∀ (reqs : List (Nat × ApplicationRequest)) (s : AppStore), StoreInv s →
      StoreInv (reqs.foldl (fun s nr => (submitApplication bindEmail bindErr jobs s nr.1 nr.2).2) s) := by
  intro reqs
  induction reqs with
  | nil => intro s h; exact h
  | cons r rs ih =>
      intro s h
      exact ih _ (submitApplication_inv bindEmail bindErr jobs s r.1 r.2 h)

theorem emptyAppStore_inv : StoreInv emptyAppStore := by
  refine ⟨List.nodup_nil, ?_, List.Pairwise.nil⟩
  intro p hp
  cases hp

/-- Claim C3: for every sequence of submission attempts against the portal
(whatever the external binding e-mail validator and error text do), the
application store never holds two applications with both the same applicant
e-mail and the same job id. -/
theorem runSubmits_no_duplicate_pair (bindEmail : String → Bool) (bindErr : String)
    (jobs : JobStore) (reqs : List (Nat × ApplicationRequest)) :
    NoDupPair (runSubmits bindEmail bindErr jobs reqs) :=
  (storeInv_foldl bindEmail bindErr jobs reqs emptyAppStore emptyAppStore_inv).2.2

/-- Claim C2 (amended: the 409 is only reached by a request that passes gin's
binding validation — non-empty job id, applicant name, applicant e-mail and
resume, with the e-mail accepted by the binding validator — and the handler's
explicit checks (the e-mail also matches the handler's regex), and that names
an existing job whose deadline has not passed; a matching request failing the
binding layer is rejected 400 `invalid_request` before the duplicate check, see
the counterexample): such a duplicate request gets HTTP 409 with error code
`duplicate_application`, and the application store is returned unchanged — no
record created, no index modified. -/
theorem submitApplication_duplicate_409 (bindEmail : String → Bool) (bindErr : String)
    (jobs : JobStore) (s : AppStore) (now : Nat)
    (req : ApplicationRequest) (p : String × Application) (job : Job)
    (hinv : StoreInv s) (hp : p ∈ s.applications)
    (he : p.2.applicantEmail = req.applicantEmail) (hj : p.2.jobID = req.jobID)
    (h1 : req.jobID ≠ "") (h2 : req.applicantName ≠ "") (h3 : req.applicantEmail ≠ "")
    (h4 : isValidEmail req.applicantEmail = true)
    (hbe : bindEmail req.applicantEmail = true) (h5 : req.resume ≠ "")
    (hjob : jobs.jobs.lookup req.jobID = some job)
    (hdl : deadlinePassed job now = false) :
    submitApplication bindEmail bindErr jobs s now req =
      (.failure 409 ⟨"duplicate_application", "You have already applied to this job.", 409⟩, s) := by
  have hdc : dupCheck s req = true :=
    dupCheck_eq_true_of_match s req hinv.1 hinv.2.1 p hp he hj
  have hcr : storeCreate s now req job =
      .error "duplicate application: already applied to this job" := by
    unfold storeCreate
    rw [if_pos hdc]
  have hbind : bindOk bindEmail req = true := by
    simp only [bindOk, Bool.and_eq_true, Bool.not_eq_true', beq_eq_false_iff_ne, ne_eq]
    exact ⟨⟨⟨⟨h1, h2⟩, h3⟩, hbe⟩, h5⟩
  unfold submitApplication
  rw [if_neg (not_not_intro hbind)]
  rw [if_neg h1, if_neg h2, if_neg h3, if_neg (not_not_intro h4), if_neg h5]
  rw [hjob]
  dsimp only
  rw [if_neg (by rw [hdl]; exact Bool.false_ne_true)]
  rw [hcr]
  dsimp only
  rw [if_pos (by decide)]

/-- Fixture: the one job of the sample portal. -/
def sampleJob : Job :=
  { id := "j1", title := "Go Engineer", company := "OtherCo"
    description := "Build Go services", requirements := ["Go"], location := "Remote"
    isRemote := true, remote := true, jobType := "full-time", applicationDeadline := none }

/-- Fixture: a seeded job store with one job. -/
def sampleJobStore : JobStore :=
  { jobs := [("j1", sampleJob)], jobIDs := ["j1"] }

/-- Fixture: a valid application request for the sample job. -/
def sampleReq : ApplicationRequest :=
  { jobID := "j1", applicantName := "Ada", applicantEmail := "ada@example.com"
    resume := "resume text", coverLetter := "cl" }

/-- Fixture: a concrete stand-in instantiation of the abstracted external
binding e-mail validator for fixture runs; the fixture theorems depend on its
behavior only through accepting the sample address and are otherwise
independent of it. -/
def sampleBindEmail (e : String) : Bool :=
  isValidEmail e

/-- Fixture: a stand-in for gin's binding error text. -/
def sampleBindErr : String :=
  "Field validation failed on the required tag"

/-- Fixture: the store after one successful submission of `sampleReq`. -/
def sampleAppStore : AppStore :=
  (submitApplication sampleBindEmail sampleBindErr sampleJobStore emptyAppStore 5 sampleReq).2

/-- Fixture: the record `sampleAppStore` holds. -/
def sampleStoredApp : Application :=
  { id := "uuid-0", confirmationID := "CONF-5-uuid-0", applicationID := "CONF-5-uuid-0"
    jobID := "j1", jobTitle := "Go Engineer", company := "OtherCo"
    applicantName := "Ada", applicantEmail := "ada@example.com", resume := "resume text"
    coverLetter := "cl", status := .received, submittedAt := 5, updatedAt := 5
    reviewedAt := none, notes := "" }

/-- Witness for C2: resubmitting the same applicant/job pair against the sample
store yields the 409 and leaves the store untouched. -/
theorem submitApplication_duplicate_409_witness :
    submitApplication sampleBindEmail sampleBindErr sampleJobStore sampleAppStore 6 sampleReq =
      (.failure 409 ⟨"duplicate_application", "You have already applied to this job.", 409⟩,
        sampleAppStore) :=
  submitApplication_duplicate_409 sampleBindEmail sampleBindErr sampleJobStore sampleAppStore
    6 sampleReq ("uuid-0", sampleStoredApp) sampleJob
    (by decide) (by decide) (by decide) (by decide) (by decide) (by decide)
    (by decide) (by decide) (by decide) (by decide) (by decide) (by decide)

/-- Fixture: a duplicate request that fails binding validation (empty resume,
a `binding:"required"` field). -/
def emptyResumeReq : ApplicationRequest :=
  { jobID := "j1", applicantName := "Ada", applicantEmail := "ada@example.com"
    resume := "", coverLetter := "cl" }

/-- Counterexample to C2 as stated: a submission request whose applicant e-mail
and job id match a stored application, but whose resume is empty, is rejected
by gin's `ShouldBindJSON` (the `binding:"required"` tag on `Resume`) with HTTP
400 `invalid_request` before the duplicate check is reached — not 409
`duplicate_application`. -/
theorem submitApplication_duplicate_409_cex :
    ("uuid-0", sampleStoredApp) ∈ sampleAppStore.applications
    ∧ sampleStoredApp.applicantEmail = emptyResumeReq.applicantEmail
    ∧ sampleStoredApp.jobID = emptyResumeReq.jobID
    ∧ (submitApplication sampleBindEmail sampleBindErr sampleJobStore sampleAppStore
        6 emptyResumeReq).1 =
        .failure 400 ⟨"invalid_request", "Invalid request body: " ++ sampleBindErr, 400⟩ := by
  refine ⟨?_, ?_, ?_, ?_⟩ <;> decide

/-! ## Claim C6 — GetApplication lookup by internal or confirmation id -/

/-- Claim C6: (i) querying GET /api/applications/:id with a stored
application's internal id returns that application's record with HTTP 200;
(ii) querying with its confirmation id does too, provided the id is not also
some map key and identifies a unique record (in stores reached through
`Create`, confirmation ids embed the fresh record id, so this holds); (iii) an
id matching no stored application's key, confirmation id or application id is
answered with HTTP 404. -/
theorem getApplication_spec (s : AppStore) (hnd : KeysNodup s) :
    (∀ p ∈ s.applications, getApplication s p.1 = .ok 200 (statusResponseOf p.2))
    ∧ (∀ (cid : String) (p : String × Application), p ∈ s.applications →
        p.2.confirmationID = cid →
        (∀ q ∈ s.applications, q.1 ≠ cid) →
        (∀ q ∈ s.applications, q.2.confirmationID = cid ∨ q.2.applicationID = cid → q.2 = p.2) →
        getApplication s cid = .ok 200 (statusResponseOf p.2))
    ∧ (∀ cid : String,
        (∀ q ∈ s.applications, q.1 ≠ cid ∧ q.2.confirmationID ≠ cid ∧ q.2.applicationID ≠ cid) →
        getApplication s cid =
          .err 404 ⟨"application_not_found", "The specified application could not be found.", 404⟩) := by
  refine ⟨?_, ?_, ?_⟩
  · intro p hp
    unfold getApplication storeGetByID
    rw [lookup_of_mem_nodup p.1 p.2 s.applications hnd (by rw [Prod.mk.eta]; exact hp)]
  · intro cid p hp hcid hnokey huniq
    unfold getApplication storeGetByID
    rw [lookup_eq_none_of_not_mem cid s.applications hnokey]
    dsimp only
    cases hf : s.applications.find? (fun q => q.2.confirmationID == cid || q.2.applicationID == cid) with
    | none =>
        exfalso
        have hall := List.find?_eq_none.mp hf p hp
        apply hall
        simp [hcid]
    | some r =>
        have hr := List.find?_some hf
        have hrm := List.mem_of_find?_eq_some hf
        have hrp : r.2 = p.2 := by
          apply huniq r hrm
          simpa using hr
        show GetAppResult.ok 200 (statusResponseOf r.2) = GetAppResult.ok 200 (statusResponseOf p.2)
        rw [hrp]
  · intro cid hnone
    unfold getApplication storeGetByID
    rw [lookup_eq_none_of_not_mem cid s.applications (fun q hq => (hnone q hq).1)]
    dsimp only
    have hf : s.applications.find? (fun q => q.2.confirmationID == cid || q.2.applicationID == cid) = none := by
      rw [List.find?_eq_none]
      intro q hq
      simp only [Bool.or_eq_true, beq_iff_eq, not_or]
      exact ⟨(hnone q hq).2.1, (hnone q hq).2.2⟩
    rw [hf]
    rfl

/-- Witness for C6 on the sample store: lookup by internal id, by confirmation
id, and a missing id. -/
theorem getApplication_spec_witness :
    getApplication sampleAppStore "uuid-0" = .ok 200 (statusResponseOf sampleStoredApp)
    ∧ getApplication sampleAppStore "CONF-5-uuid-0" = .ok 200 (statusResponseOf sampleStoredApp)
    ∧ getApplication sampleAppStore "missing-id" =
        .err 404 ⟨"application_not_found", "The specified application could not be found.", 404⟩ := by
  have h := getApplication_spec sampleAppStore (by decide)
  exact ⟨h.1 ("uuid-0", sampleStoredApp) (by decide),
    h.2.1 "CONF-5-uuid-0" ("uuid-0", sampleStoredApp) (by decide) (by decide) (by decide)
      (by decide),
    h.2.2 "missing-id" (by decide)⟩

/-! ## Closed forms of the job-store loops (for C7 and C10) -/

/-- The jobs obtained by unchecked map reads over an id list (zero value for a
missing key), as `Search` and the two filter loops do. -/
def lookedUpJobs (jobs : List (String × Job)) (ids : List String) : List Job :=
  ids.map (fun id => (jobs.lookup id).getD zeroJob)

/-- The common shape of `Search`, `FilterByRemote` and `FilterByJobType`:
unchecked map read, a keep predicate, and the count/limit cap. -/
def jobFilterLoop (jobs : List (String × Job)) (keep : Job → Bool) (limit : Int) :
    List String → Int → List Job
  | [], _ => []
  | id :: rest, count =>
    if limit > 0 ∧ count ≥ limit then []
    else
      let job := (jobs.lookup id).getD zeroJob
      if keep job then job :: jobFilterLoop jobs keep limit rest (count + 1)
      else jobFilterLoop jobs keep limit rest count

theorem searchLoop_eq_jobFilterLoop (jobs : List (String × Job)) (q : String) (limit : Int) :
    ∀ (ids : List String) (count : Int),
      searchLoop jobs q limit ids count = jobFilterLoop jobs (matchesQuery q) limit ids count := by
  intro ids
  induction ids with
  | nil => intro count; rfl
  | cons id rest ih =>
      intro count
      unfold searchLoop jobFilterLoop
      by_cases h : limit > 0 ∧ count ≥ limit
      · rw [if_pos h, if_pos h]
      · rw [if_neg h, if_neg h]
        dsimp only
        by_cases hk : matchesQuery q ((jobs.lookup id).getD zeroJob) = true
        · rw [if_pos hk, if_pos hk, ih]
        · rw [if_neg hk, if_neg hk, ih]

theorem filterRemoteLoop_eq_jobFilterLoop (jobs : List (String × Job)) (limit : Int) :
    ∀ (ids : List String) (count : Int),
      filterRemoteLoop jobs limit ids count =
        jobFilterLoop jobs (fun job => job.isRemote || job.remote) limit ids count := by
  intro ids
  induction ids with
  | nil => intro count; rfl
  | cons id rest ih =>
      intro count
      unfold filterRemoteLoop jobFilterLoop
      by_cases h : limit > 0 ∧ count ≥ limit
      · rw [if_pos h, if_pos h]
      · rw [if_neg h, if_neg h]
        dsimp only
        by_cases hk : (((jobs.lookup id).getD zeroJob).isRemote
            || ((jobs.lookup id).getD zeroJob).remote) = true
        · rw [if_pos hk, if_pos hk, ih]
        · rw [if_neg hk, if_neg hk, ih]

theorem filterTypeLoop_eq_jobFilterLoop (jobs : List (String × Job)) (jobType : String)
    (limit : Int) :
    ∀ (ids : List String) (count : Int),
      filterTypeLoop jobs jobType limit ids count =
        jobFilterLoop jobs (fun job => job.jobType == jobType) limit ids count := by
  intro ids
  induction ids with
  | nil => intro count; rfl
  | cons id rest ih =>
      intro count
      unfold filterTypeLoop jobFilterLoop
      by_cases h : limit > 0 ∧ count ≥ limit
      · rw [if_pos h, if_pos h]
      · rw [if_neg h, if_neg h]
        dsimp only
        by_cases hk : (((jobs.lookup id).getD zeroJob).jobType == jobType) = true
        · rw [if_pos hk, if_pos hk, ih]
        · rw [if_neg hk, if_neg hk, ih]

/-- Closed form of the generic loop: the filtered looked-up jobs, truncated at
`limit - count` when the limit is positive, untruncated otherwise. -/
theorem jobFilterLoop_eq (jobs : List (String × Job)) (keep : Job → Bool) (limit : Int) :
    ∀ (ids : List String) (count : Int),
      jobFilterLoop jobs keep limit ids count =
        if 0 < limit then ((lookedUpJobs jobs ids).filter keep).take (limit - count).toNat
        else (lookedUpJobs jobs ids).filter keep := by
  intro ids
  induction ids with
  | nil =>
      intro count
      unfold jobFilterLoop lookedUpJobs
      simp
  | cons id rest ih =>
      intro count
      unfold jobFilterLoop
      have hlist : lookedUpJobs jobs (id :: rest) =
          ((jobs.lookup id).getD zeroJob) :: lookedUpJobs jobs rest := rfl
      rw [hlist]
      by_cases hl : 0 < limit
      · by_cases hc : count ≥ limit
        · rw [if_pos ⟨hl, hc⟩, if_pos hl]
          have h0 : (limit - count).toNat = 0 := by omega
          rw [h0]
          simp
        · rw [if_neg (by tauto), if_pos hl]
          dsimp only
          by_cases hk : keep ((jobs.lookup id).getD zeroJob) = true
          · rw [if_pos hk, List.filter_cons, if_pos hk]
            rw [ih (count + 1), if_pos hl]
            have h1 : (limit - count).toNat = (limit - (count + 1)).toNat + 1 := by omega
            rw [h1, List.take_succ_cons]
          · rw [if_neg hk, List.filter_cons, if_neg hk]
            rw [ih count, if_pos hl]
      · rw [if_neg (by tauto), if_neg hl]
        dsimp only
        by_cases hk : keep ((jobs.lookup id).getD zeroJob) = true
        · rw [if_pos hk, List.filter_cons, if_pos hk, ih (count + 1), if_neg hl]
        · rw [if_neg hk, List.filter_cons, if_neg hk, ih count, if_neg hl]

/-- Closed form of the `GetAll` loop: the jobs found in the map, truncated when
the limit is positive. -/
theorem getAllLoop_eq (jobs : List (String × Job)) (limit : Int) :
    ∀ (ids : List String) (count : Int),
      getAllLoop jobs limit ids count =
        if 0 < limit then
          (ids.filterMap (fun id => jobs.lookup id)).take (limit - count).toNat
        else ids.filterMap (fun id => jobs.lookup id) := by
  intro ids
  induction ids with
  | nil =>
      intro count
      unfold getAllLoop
      simp
  | cons id rest ih =>
      intro count
      unfold getAllLoop
      by_cases hl : 0 < limit
      · by_cases hc : count ≥ limit
        · rw [if_pos ⟨hl, hc⟩, if_pos hl]
          have h0 : (limit - count).toNat = 0 := by omega
          rw [h0]
          simp
        · rw [if_neg (by tauto), if_pos hl]
          cases hlk : jobs.lookup id with
          | some job =>
              dsimp only
              simp only [List.filterMap_cons, hlk]
              rw [ih (count + 1), if_pos hl]
              have h1 : (limit - count).toNat = (limit - (count + 1)).toNat + 1 := by omega
              rw [h1, List.take_succ_cons]
          | none =>
              dsimp only
              simp only [List.filterMap_cons, hlk]
              rw [ih count, if_pos hl]
      · rw [if_neg (by tauto), if_neg hl]
        cases hlk : jobs.lookup id with
        | some job =>
            dsimp only
            simp only [List.filterMap_cons, hlk]
            rw [ih (count + 1), if_neg hl]
        | none =>
            dsimp only
            simp only [List.filterMap_cons, hlk]
            rw [ih count, if_neg hl]

/-- In a well-formed store every unchecked map read succeeds, so the looked-up
jobs are exactly the seed-order jobs. -/
theorem lookedUpJobs_eq_storeJobs (s : JobStore) (hwf : JobStoreWF s) :
    lookedUpJobs s.jobs s.jobIDs = storeJobs s := by
  unfold lookedUpJobs storeJobs
  have : ∀ ids : List String, (∀ id ∈ ids, (s.jobs.lookup id).isSome) →
      ids.map (fun id => (s.jobs.lookup id).getD zeroJob) =
        ids.filterMap (fun id => s.jobs.lookup id) := by
    intro ids
    induction ids with
    | nil => intro _; rfl
    | cons id rest ih =>
        intro h
        have hid := h id (List.mem_cons_self id rest)
        cases hlk : s.jobs.lookup id with
        | none => rw [hlk] at hid; cases hid
        | some job =>
            rw [List.map_cons]
            simp only [List.filterMap_cons, hlk, Option.getD_some]
            rw [ih (fun u hu => h u (List.mem_cons_of_mem id hu))]
  exact this s.jobIDs hwf

/-- Closed form of `JobStore.GetAll`. -/
theorem getAll_eq (s : JobStore) (limit : Int) :
    s.getAll limit = if 0 < limit then (storeJobs s).take limit.toNat else storeJobs s := by
  unfold JobStore.getAll storeJobs
  rw [getAllLoop_eq]
  have h0 : (limit - 0).toNat = limit.toNat := by omega
  rw [h0]

/-- Closed form of `JobStore.Search` on a non-empty query. -/
theorem search_eq (s : JobStore) (q : String) (limit : Int) (hq : q ≠ "") :
    s.search q limit =
      if 0 < limit then ((lookedUpJobs s.jobs s.jobIDs).filter (matchesQuery q)).take limit.toNat
      else (lookedUpJobs s.jobs s.jobIDs).filter (matchesQuery q) := by
  unfold JobStore.search
  rw [if_neg hq, searchLoop_eq_jobFilterLoop, jobFilterLoop_eq]
  have h0 : (limit - 0).toNat = limit.toNat := by omega
  rw [h0]

/-- Closed form of `JobStore.FilterByRemote`. -/
theorem filterByRemote_eq (s : JobStore) (limit : Int) :
    s.filterByRemote limit =
      if 0 < limit then
        ((lookedUpJobs s.jobs s.jobIDs).filter (fun job => job.isRemote || job.remote)).take limit.toNat
      else (lookedUpJobs s.jobs s.jobIDs).filter (fun job => job.isRemote || job.remote) := by
  unfold JobStore.filterByRemote
  rw [filterRemoteLoop_eq_jobFilterLoop, jobFilterLoop_eq]
  have h0 : (limit - 0).toNat = limit.toNat := by omega
  rw [h0]

/-- Closed form of `JobStore.FilterByJobType`. -/
theorem filterByJobType_eq (s : JobStore) (jobType : String) (limit : Int) :
    s.filterByJobType jobType limit =
      if 0 < limit then
        ((lookedUpJobs s.jobs s.jobIDs).filter (fun job => job.jobType == jobType)).take limit.toNat
      else (lookedUpJobs s.jobs s.jobIDs).filter (fun job => job.jobType == jobType) := by
  unfold JobStore.filterByJobType
  rw [filterTypeLoop_eq_jobFilterLoop, jobFilterLoop_eq]
  have h0 : (limit - 0).toNat = limit.toNat := by omega
  rw [h0]

/-- Length and order facts about a possibly-capped list. -/
theorem capped_spec (limit : Int) (X Y : List Job) (hXY : X.Sublist Y) :
    (0 < limit → (((if 0 < limit then X.take limit.toNat else X).length : Int) ≤ limit))
    ∧ (if 0 < limit then X.take limit.toNat else X).Sublist Y := by
  constructor
  · intro hl
    rw [if_pos hl]
    have h1 : (X.take limit.toNat).length ≤ limit.toNat := by
      rw [List.length_take]
      exact Nat.min_le_left _ _
    omega
  · by_cases hl : 0 < limit
    · rw [if_pos hl]
      exact (List.take_sublist _ _).trans hXY
    · rw [if_neg hl]
      exact hXY

/-! ## Claim C7 — ListJobs limit coercion, cap, seed order, and total -/

/-- Claim C7 (amended: "at most `limit` jobs" holds whenever the effective limit
is positive; an explicit `limit=0` parses and is not coerced, and `GetAll(0)`
applies no cap — see the counterexample): `ListJobs` coerces a missing,
non-numeric, or negative limit parameter to 100, returns a sublist of the jobs
in seed insertion order of length at most the effective limit when that limit is
positive, and reports `total` as the store's job count, not the number of jobs
returned after filtering. -/
theorem listJobs_spec (s : JobStore) (limitParam : Option String) (q remote jobType : String)
    (hwf : JobStoreWF s) :
    (limitParam = none → effLimit limitParam = 100)
    ∧ (∀ str, limitParam = some str → goAtoi str = none → effLimit limitParam = 100)
    ∧ (∀ str n, limitParam = some str → goAtoi str = some n → n < 0 → effLimit limitParam = 100)
    ∧ (listJobs s limitParam q remote jobType).total = s.getCount
    ∧ (0 < effLimit limitParam →
        (((listJobs s limitParam q remote jobType).jobs.length : Int) ≤ effLimit limitParam))
    ∧ (listJobs s limitParam q remote jobType).jobs.Sublist (storeJobs s) := by
  have hbranch : ∃ Z : List Job, Z.Sublist (storeJobs s) ∧
      (listJobs s limitParam q remote jobType).jobs =
        if 0 < effLimit limitParam then Z.take (effLimit limitParam).toNat else Z := by
    unfold listJobs
    dsimp only
    by_cases hq : q ≠ ""
    · rw [if_pos hq]
      refine ⟨(storeJobs s).filter (matchesQuery q), List.filter_sublist _, ?_⟩
      rw [search_eq s q _ hq, lookedUpJobs_eq_storeJobs s hwf]
    · rw [if_neg hq]
      by_cases hr : remote = "true"
      · rw [if_pos hr]
        refine ⟨(storeJobs s).filter (fun job => job.isRemote || job.remote),
          List.filter_sublist _, ?_⟩
        rw [filterByRemote_eq, lookedUpJobs_eq_storeJobs s hwf]
      · rw [if_neg hr]
        by_cases ht : jobType ≠ ""
        · rw [if_pos ht]
          refine ⟨(storeJobs s).filter (fun job => job.jobType == jobType),
            List.filter_sublist _, ?_⟩
          rw [filterByJobType_eq, lookedUpJobs_eq_storeJobs s hwf]
        · rw [if_neg ht]
          exact ⟨storeJobs s, List.Sublist.refl _, getAll_eq s _⟩
  obtain ⟨Z, hZ, hjobs⟩ := hbranch
  refine ⟨?_, ?_, ?_, rfl, ?_, ?_⟩
  · intro h
    rw [h]
    decide
  · intro str h hnone
    subst h
    unfold effLimit
    rw [show (some str).getD "100" = str from rfl, hnone]
  · intro str n h hsome hneg
    subst h
    unfold effLimit
    rw [show (some str).getD "100" = str from rfl, hsome]
    dsimp only
    rw [if_pos hneg]
  · intro hl
    rw [hjobs]
    exact (capped_spec (effLimit limitParam) Z (storeJobs s) hZ).1 hl
  · rw [hjobs]
    exact (capped_spec (effLimit limitParam) Z (storeJobs s) hZ).2

/-- Witness for C7 on the sample store: a non-numeric limit is coerced to 100,
the total is the store count, and the jobs come in seed order. -/
theorem listJobs_spec_witness :
    effLimit (some "abc") = 100
    ∧ (listJobs sampleJobStore (some "abc") "" "" "").total = sampleJobStore.getCount
    ∧ (listJobs sampleJobStore (some "abc") "" "" "").jobs.Sublist (storeJobs sampleJobStore) := by
  have h := listJobs_spec sampleJobStore (some "abc") "" "" "" (by decide)
  exact ⟨h.2.1 "abc" rfl (by decide), h.2.2.2.1, h.2.2.2.2.2⟩

/-- Counterexample to C7 as stated: `limit=0` is numeric and non-negative, so
it is not coerced to 100, yet the response returns every job — the cap is
disabled, so "at most `limit` jobs" fails at `limit = 0` on a non-empty store. -/
theorem listJobs_limit_zero_cex :
    goAtoi "0" = some 0
    ∧ effLimit (some "0") = 0
    ∧ (listJobs sampleJobStore (some "0") "" "" "").jobs.length = 1 := by
  refine ⟨?_, ?_, ?_⟩ <;> decide

/-! ## Claim C10 — Search semantics and ASCII-only case folding -/

/-- The jobs, in seed order, whose title, company or description matches the
query under the store's case folding. -/
def searchMatches (s : JobStore) (q : String) : List Job :=
  (storeJobs s).filter (matchesQuery q)

theorem goContains_nil (l : List Char) : goContains l [] = true := by
  unfold goContains
  rw [List.any_eq_true]
  refine ⟨0, ?_, by simp⟩
  simp

/-- Claim C10: for every non-empty query, `JobStore.Search` returns exactly the
jobs, in seed order and truncated at the limit when it is positive, whose
title, company, or description contains the query under ASCII-only case
folding; the empty query falls back to `GetAll` and matches every job; only
`'A'`–`'Z'` are lowercased, so two distinct characters outside that range (such
as a non-ASCII letter and its lowercase form) are never identified by the
folding. -/
theorem jobStore_search_spec (s : JobStore) (q : String) (limit : Int) (hwf : JobStoreWF s) :
    (q ≠ "" → s.search q limit =
      if 0 < limit then (searchMatches s q).take limit.toNat else searchMatches s q)
    ∧ s.search "" limit = s.getAll limit
    ∧ (∀ job : Job, matchesQuery "" job = true)
    ∧ (∀ c : Char, ¬ ('A' ≤ c ∧ c ≤ 'Z') → asciiLowerChar c = c)
    ∧ (∀ c d : Char, ¬ ('A' ≤ c ∧ c ≤ 'Z') → ¬ ('A' ≤ d ∧ d ≤ 'Z') → c ≠ d →
        asciiLowerChar c ≠ asciiLowerChar d) := by
  have hfix : ∀ c : Char, ¬ ('A' ≤ c ∧ c ≤ 'Z') → asciiLowerChar c = c := by
    intro c hc
    unfold asciiLowerChar
    rw [if_neg hc]
  refine ⟨?_, ?_, ?_, hfix, ?_⟩
  · intro hq
    rw [search_eq s q limit hq]
    unfold searchMatches
    rw [lookedUpJobs_eq_storeJobs s hwf]
  · unfold JobStore.search
    rw [if_pos rfl]
  · intro job
    have hempty : ∀ t : String, containsIgnoreCase t "" = true := by
      intro t
      unfold containsIgnoreCase
      have h1 : ("" : String).toList = [] := rfl
      rw [h1]
      show (decide (List.length [] ≤ t.toList.length) && goContains (asciiLower t.toList) (asciiLower [])) = true
      rw [show asciiLower [] = [] from rfl, goContains_nil]
      simp
    unfold matchesQuery
    rw [hempty, hempty, hempty]
    rfl
  · intro c d hc hd hne
    rw [hfix c hc, hfix d hd]
    exact hne

/-- Witness for C10 on the sample store: a case-folded hit, the capped result,
the empty-query fallback, and the non-ASCII non-folding at `'Ä'` versus `'ä'`. -/
theorem jobStore_search_spec_witness :
    sampleJobStore.search "gO ENGine" 5 =
      (if 0 < (5 : Int) then (searchMatches sampleJobStore "gO ENGine").take (5 : Int).toNat
       else searchMatches sampleJobStore "gO ENGine")
    ∧ sampleJobStore.search "" 5 = sampleJobStore.getAll 5
    ∧ asciiLowerChar 'Ä' = 'Ä' := by
  have h := jobStore_search_spec sampleJobStore "gO ENGine" 5 (by decide)
  exact ⟨h.1 (by decide), h.2.1, h.2.2.2.1 'Ä' (by decide)⟩

end Portal
